import Mathlib

/-!
# Shallow embedding of the `kz-io/warn` warning library

This file embeds the warning-class hierarchy (`src/exceptions/*`) and the
`WarningManager` collector (`src/warning_manager.ts`) as Lean definitions and
proves the specified properties about them.

The manager extends `TBaseObservable` from the external `@kz/observe` package,
which is not part of this repository; its `subscribe` / `publish` / `complete`
behaviour is modelled from the specification of the observer contract.
Observer notification is made explicit: every state-changing operation returns,
next to the new state, the list of `next` invocations it performs, as
(observer, record) pairs.
-/

/-- The closed hierarchy of warning classes exported by the library
(`src/exceptions/mod.ts`): `Warning`, `OSWarning`, `MemoryWarning`,
`DiskWarning`, `ProcessWarning`, `ConnectionWarning`, `FutureWarning`,
`StabilityWarning`, `DeprecationWarning`, `PendingDeprecationWarning`. -/
inductive WKind where
  | Warning
  | OSWarning
  | MemoryWarning
  | DiskWarning
  | ProcessWarning
  | ConnectionWarning
  | FutureWarning
  | StabilityWarning
  | DeprecationWarning
  | PendingDeprecationWarning
deriving DecidableEq, Repr

/-- The direct superclass of each warning class, read off the `extends`
clauses of the source files (`OSWarning extends Warning`,
`MemoryWarning extends OSWarning`, `DiskWarning extends OSWarning`,
`ProcessWarning extends OSWarning`, `ConnectionWarning extends OSWarning`,
`FutureWarning extends Warning`, `StabilityWarning extends FutureWarning`,
`DeprecationWarning extends FutureWarning`,
`PendingDeprecationWarning extends FutureWarning`). -/
def parentKind : WKind → Option WKind
  | .Warning => none
  | .OSWarning => some .Warning
  | .MemoryWarning => some .OSWarning
  | .DiskWarning => some .OSWarning
  | .ProcessWarning => some .OSWarning
  | .ConnectionWarning => some .OSWarning
  | .FutureWarning => some .Warning
  | .StabilityWarning => some .FutureWarning
  | .DeprecationWarning => some .FutureWarning
  | .PendingDeprecationWarning => some .FutureWarning

/-- The prototype chain of a warning class: the class itself followed by all
its ancestors, in order. Spelled out per class; `selfAndAncestors_eq_parent`
below checks this table against `parentKind`. -/
def selfAndAncestors : WKind → List WKind
  | .Warning => [.Warning]
  | .OSWarning => [.OSWarning, .Warning]
  | .MemoryWarning => [.MemoryWarning, .OSWarning, .Warning]
  | .DiskWarning => [.DiskWarning, .OSWarning, .Warning]
  | .ProcessWarning => [.ProcessWarning, .OSWarning, .Warning]
  | .ConnectionWarning => [.ConnectionWarning, .OSWarning, .Warning]
  | .FutureWarning => [.FutureWarning, .Warning]
  | .StabilityWarning => [.StabilityWarning, .FutureWarning, .Warning]
  | .DeprecationWarning => [.DeprecationWarning, .FutureWarning, .Warning]
  | .PendingDeprecationWarning => [.PendingDeprecationWarning, .FutureWarning, .Warning]

/-- `instanceof` on the modelled hierarchy: `isA k v` holds when `k` is the
class `v` itself or a class derived from `v`. -/
def isA (k v : WKind) : Bool :=
  (selfAndAncestors k).contains v

/-- The class name of each warning class, used by `groupWarnings` as the
grouping key (the `name` property of a warning instance). -/
def kindName : WKind → String
  | .Warning => "Warning"
  | .OSWarning => "OSWarning"
  | .MemoryWarning => "MemoryWarning"
  | .DiskWarning => "DiskWarning"
  | .ProcessWarning => "ProcessWarning"
  | .ConnectionWarning => "ConnectionWarning"
  | .FutureWarning => "FutureWarning"
  | .StabilityWarning => "StabilityWarning"
  | .DeprecationWarning => "DeprecationWarning"
  | .PendingDeprecationWarning => "PendingDeprecationWarning"

/-- The fixed `code` constant of each warning class, as initialised in the
source (`0x48`, `0x49`, `0x4a`, `0x4b`, `0x4c`, `0x4d`, `0x58`, `0x59`,
`0x5a`, `0x5b`). -/
def classCode : WKind → Nat
  | .Warning => 0x48
  | .OSWarning => 0x49
  | .MemoryWarning => 0x4a
  | .DiskWarning => 0x4b
  | .ProcessWarning => 0x4c
  | .ConnectionWarning => 0x4d
  | .FutureWarning => 0x58
  | .StabilityWarning => 0x59
  | .PendingDeprecationWarning => 0x5a
  | .DeprecationWarning => 0x5b

/-- Default message of `StabilityWarning` (its `DEFAULT_MESSAGE` constant). -/
def STABILITY_DEFAULT_MESSAGE : String :=
  "A feature is unstable and should not be used in production environments."

/-- Default message of `DeprecationWarning` (its `DEFAULT_MESSAGE` constant). -/
def DEPRECATION_DEFAULT_MESSAGE : String :=
  "A feature has been deprecated."

/-- Default message of `PendingDeprecationWarning` (its `DEFAULT_MESSAGE`
constant). -/
def PENDING_DEPRECATION_DEFAULT_MESSAGE : String :=
  "A feature is pending deprecation."

/-- The classes whose constructors replace an empty message with their own
default (`message = message || DEFAULT_MESSAGE` in the constructors of
`StabilityWarning`, `DeprecationWarning` and `PendingDeprecationWarning`);
`none` for the other classes. -/
def defaultMessageOf : WKind → Option String
  | .StabilityWarning => some STABILITY_DEFAULT_MESSAGE
  | .DeprecationWarning => some DEPRECATION_DEFAULT_MESSAGE
  | .PendingDeprecationWarning => some PENDING_DEPRECATION_DEFAULT_MESSAGE
  | _ => none

/-- Modelled from the spec for the classes whose constructor is not in this
repository: the base `Exception` class of `@kz/common-exceptions` stores the
supplied message description unchanged (spec: the record's `message` equals
the supplied message). For `StabilityWarning`, `DeprecationWarning` and
`PendingDeprecationWarning` the constructors in the source apply
`message = message || DEFAULT_MESSAGE`, replacing an empty message with the
class default. -/
def ctorMessage (k : WKind) (s : String) : String :=
  match defaultMessageOf k with
  | some d => if s = "" then d else s
  | none => s

/-- A warning instance as the manager sees it: its dynamic class, its
`message`, and its `code` (set by the class to its fixed constant). -/
structure Warning where
  kind : WKind
  message : String
  code : Nat
deriving DecidableEq, Repr

/-- `new type(message)`: constructing a warning of class `k` from a message
string, as `WarningManager.warn` does. -/
def mkWarning (k : WKind) (s : String) : Warning :=
  { kind := k, message := ctorMessage k s, code := classCode k }

/-- Boolean substring test on character lists (`needle` occurs inside
`haystack`), the semantics of JavaScript `String.prototype.includes`. -/
def isInfixB (needle : List Char) (hay : List Char) : Bool :=
  match hay with
  | [] => needle.isEmpty
  | c :: t => needle.isPrefixOf (c :: t) || isInfixB needle t

/-- `s.includes(sub)` of JavaScript: `sub` is a substring of `s`. -/
def jsIncludes (s sub : String) : Bool :=
  isInfixB sub.data s.data

theorem selfAndAncestors_eq_parent (k : WKind) :
    selfAndAncestors k =
      k :: (match parentKind k with
            | none => []
            | some p => selfAndAncestors p) := by
  cases k <;> rfl

theorem isInfixB_iff (needle hay : List Char) :
    isInfixB needle hay = true ↔ needle <:+: hay := by
  induction hay with
  | nil =>
    simp only [isInfixB, List.isEmpty_iff]
    constructor
    · rintro rfl; exact List.infix_refl _
    · intro h; exact List.eq_nil_of_infix_nil h
  | cons c t ih =>
    simp only [isInfixB, Bool.or_eq_true, List.isPrefixOf_iff_prefix, ih]
    constructor
    · rintro (h | h)
      · exact h.isInfix
      · exact h.trans (List.infix_cons List.infix_rfl)
    · intro h
      rcases List.infix_cons_iff.mp h with h | h
      · exact Or.inl h
      · exact Or.inr h

/-- The state of a `WarningManager` (`src/warning_manager.ts`): the ordered
collection of warnings, plus the observable state it inherits from
`TBaseObservable` — the list of subscribed observers (identified here by
natural numbers) and the `completed` lifecycle flag. A manager is created as
`{ warnings := [], observers := [], completed := false }`. -/
structure WarningManager where
  warnings : List Warning
  observers : List Nat
  completed : Bool
deriving DecidableEq, Repr

/-- A `next` invocation performed during an operation: which observer was
notified, and with which record. -/
abbrev NotifyEvent := Nat × Warning

/-- Modelled from the spec: `TBaseObservable.publish` (from the external
`@kz/observe` package, not in this repository) synchronously delivers the
published value to every currently subscribed observer, invoking each
observer's `next` exactly once with the value. -/
def publish (m : WarningManager) (w : Warning) : List NotifyEvent :=
  m.observers.map (fun o => (o, w))

/-- Modelled from the spec: `TBaseObservable.subscribe` (external package)
registers an observer with the observable. -/
def subscribe (m : WarningManager) (o : Nat) : WarningManager :=
  { m with observers := m.observers ++ [o] }

/-- Modelled from the spec: `TBaseObservable.complete` (external package)
unsubscribes every observer (the observer list becomes empty) and sets the
`completed` flag; there is no transition back. -/
def observableComplete (m : WarningManager) : WarningManager :=
  { m with observers := [], completed := true }

/-- `WarningManager.length`: the number of stored warnings. -/
def WarningManager.length (m : WarningManager) : Nat :=
  m.warnings.length

/-- `WarningManager.add`: pushes the warning onto the collection and then
publishes it to the observers. -/
def add (m : WarningManager) (w : Warning) : WarningManager × List NotifyEvent :=
  ({ m with warnings := m.warnings ++ [w] }, publish m w)

/-- The second argument of `warn(message, type?)`. JavaScript default
parameters replace only `undefined`, so the three relevant shapes are:
the argument is absent or `undefined` (the default `Warning` applies),
the argument is another falsy value such as `null` (the default does not
apply and the `if (type)` guard fails), or the argument is an actual
constructor (always truthy). -/
inductive CtorArg where
  | undef
  | nullish
  | ctor (k : WKind)
deriving DecidableEq, Repr

/-- The first (and second) argument of an invocation of `warn`: either a
warning instance, or a message string together with the constructor
argument. -/
inductive WarnArg where
  | inst (w : Warning)
  | msg (s : String) (t : CtorArg)
deriving DecidableEq, Repr

/-- `WarningManager.warn`: for a warning instance, `add` it; for a string
message, resolve the default parameter (`type = Warning` when the argument
is absent/`undefined`), then — only if `type` is truthy — construct
`new type(message)` and `add` it, otherwise do nothing. -/
def warn (m : WarningManager) (a : WarnArg) : WarningManager × List NotifyEvent :=
  match a with
  | .inst w => add m w
  | .msg s t =>
    match t with
    | .undef => add m (mkWarning .Warning s)
    | .nullish => (m, [])
    | .ctor k => add m (mkWarning k s)

/-- A `warn` call is well-formed when it is a call with a warning instance,
or a call with a string message whose constructor argument is usable
(absent, so that the default applies, or an actual constructor). -/
def wellFormed : WarnArg → Bool
  | .inst _ => true
  | .msg _ .undef => true
  | .msg _ .nullish => false
  | .msg _ (.ctor _) => true

/-- The record a `warn` call appends, if any. -/
def recordedWarning : WarnArg → Option Warning
  | .inst w => some w
  | .msg s .undef => some (mkWarning .Warning s)
  | .msg _ .nullish => none
  | .msg s (.ctor k) => some (mkWarning k s)

/-- Runs a sequence of `warn` calls, collecting all notification events in
order. -/
def runWarn (m : WarningManager) : List WarnArg → WarningManager × List NotifyEvent
  | [] => (m, [])
  | a :: rest =>
    let r := warn m a
    let r2 := runWarn r.1 rest
    (r2.1, r.2 ++ r2.2)

/-- The argument of `getWarnings(type?)`: absent/`undefined` (or another
falsy value, which takes the same copy branch), a message substring, or a
warning class. -/
inductive GetArg where
  | noFilter
  | byMsg (s : String)
  | byType (k : WKind)
deriving DecidableEq, Repr

/-- `WarningManager.getWarnings`: with a string argument, filter by
`warning.message.includes(type)`; with a class argument, filter by
`warning instanceof type`; otherwise return a copy of the collection. -/
def getWarnings (m : WarningManager) : GetArg → List Warning
  | .noFilter => m.warnings
  | .byMsg s => m.warnings.filter (fun w => jsIncludes w.message s)
  | .byType k => m.warnings.filter (fun w => isA w.kind k)

/-- One step of the grouping loop in `WarningManager.groupWarnings`: insert
`w` under key `n` in an insertion-ordered map (JavaScript `Map` semantics —
an existing key keeps its position, a new key goes to the end). -/
def groupInsert (g : List (String × List Warning)) (n : String) (w : Warning) :
    List (String × List Warning) :=
  match g with
  | [] => [(n, [w])]
  | (k, ws) :: rest =>
    if k = n then (k, ws ++ [w]) :: rest else (k, ws) :: groupInsert rest n w

/-- `WarningManager.groupWarnings`: iterates over `getWarnings()` in order,
inserting each warning under its own `name`. -/
def groupWarnings (m : WarningManager) : List (String × List Warning) :=
  (getWarnings m .noFilter).foldl (fun g w => groupInsert g (kindName w.kind) w) []

/-- `Map.get` on the insertion-ordered map built by `groupWarnings`, with
`[]` for an absent key. -/
def groupLookup (g : List (String × List Warning)) (n : String) : List Warning :=
  match g with
  | [] => []
  | (k, ws) :: rest => if k = n then ws else groupLookup rest n

/-- `WarningManager.clear`: replaces the collection with an empty one and
touches nothing else. -/
def clear (m : WarningManager) : WarningManager :=
  { m with warnings := [] }

/-- `WarningManager.complete`: `super.complete()` (the observable completes:
observers emptied, `completed` set) followed by `this.clear()`. -/
def complete (m : WarningManager) : WarningManager :=
  clear (observableComplete m)

/-- An arbitrary manager operation, for stating lifecycle properties over
whole operation sequences. -/
inductive MOp where
  | warnOp (a : WarnArg)
  | clearOp
  | subscribeOp (o : Nat)
  | completeOp
deriving DecidableEq, Repr

/-- Applies one operation, returning the new state and the notification
events the operation performs. -/
def applyOp (m : WarningManager) : MOp → WarningManager × List NotifyEvent
  | .warnOp a => warn m a
  | .clearOp => (clear m, [])
  | .subscribeOp o => (subscribe m o, [])
  | .completeOp => (complete m, [])

/-- Runs a sequence of operations, collecting all notification events. -/
def runOps (m : WarningManager) : List MOp → WarningManager × List NotifyEvent
  | [] => (m, [])
  | op :: rest =>
    let r := applyOp m op
    let r2 := runOps r.1 rest
    (r2.1, r.2 ++ r2.2)

/-- The structured data accepted by the `StabilityWarning` constructor:
`featureType`, `featureName` and `aboutUrl`, each an optional string. -/
structure StabilityWarningData where
  featureType : Option String := none
  featureName : Option String := none
  aboutUrl : Option String := none
deriving DecidableEq, Repr

/-- JavaScript truthiness of a `string | undefined` value: defined and
non-empty. -/
def truthyStr : Option String → Bool
  | none => false
  | some s => !(s == "")

/-- `createMessageFromData` of `StabilityWarning`: synthesizes the message
from the data fields, with the leading article `An` when the lowercased
first character of `featureType` occurs in `"aeiou"`, else `A`, and one
branch per combination of truthy fields, tried in source order. -/
def createMessageFromData (data : StabilityWarningData) : String :=
  let aboutUrl := data.aboutUrl.getD ""
  let featureName := data.featureName.getD ""
  let featureType := data.featureType.getD ""
  let first := (featureType.take 1).toLower
  let A := if isInfixB first.data "aeiou".data then "An" else "A"
  if truthyStr data.aboutUrl && truthyStr data.featureName && truthyStr data.featureType then
    A ++ " " ++ featureType ++ ", " ++ featureName ++
      ", is unstable and should not be used in production environments. Read more at " ++
      aboutUrl ++ "."
  else if truthyStr data.aboutUrl && truthyStr data.featureName then
    "A feature, " ++ featureName ++
      ", is unstable and should not be used in production environments. Read more at " ++
      aboutUrl ++ "."
  else if truthyStr data.aboutUrl && truthyStr data.featureType then
    A ++ " " ++ featureType ++
      " is unstable and should not be used in production environments. Read more at " ++
      aboutUrl ++ "."
  else if truthyStr data.featureName && truthyStr data.featureType then
    A ++ " " ++ featureType ++ ", " ++ featureName ++
      ", is unstable and should not be used in production environments."
  else if truthyStr data.featureName then
    "A feature, " ++ featureName ++
      ", is unstable and should not be used in production environments."
  else if truthyStr data.featureType then
    A ++ " " ++ featureType ++
      " is unstable and should not be used in production environments."
  else if truthyStr data.aboutUrl then
    STABILITY_DEFAULT_MESSAGE ++ " Read more at " ++ aboutUrl ++ "."
  else
    STABILITY_DEFAULT_MESSAGE

/-- The argument of the `StabilityWarning` constructor implementation: a
message string or a data object (an absent argument defaults to the default
message string). -/
inductive MessageOrData where
  | message (s : String)
  | data (d : StabilityWarningData)
deriving DecidableEq, Repr

/-- The `message` the `StabilityWarning` constructor passes to `super`: the
given string, or the message synthesized from the data, with an empty result
replaced by the default message (`message = message || DEFAULT_MESSAGE`). -/
def stabilityMessage : MessageOrData → String
  | .message s => if s = "" then STABILITY_DEFAULT_MESSAGE else s
  | .data d =>
    let msg := createMessageFromData d
    if msg = "" then STABILITY_DEFAULT_MESSAGE else msg

/-- Constructing a `StabilityWarning` instance. -/
def mkStabilityWarning (arg : MessageOrData) : Warning :=
  { kind := .StabilityWarning
    message := stabilityMessage arg
    code := classCode .StabilityWarning }

theorem warn_recorded_state (m : WarningManager) (a : WarnArg) (w : Warning)
    (h : recordedWarning a = some w) :
    (warn m a).1 = { m with warnings := m.warnings ++ [w] } := by
  cases a with
  | inst w' =>
    simp only [recordedWarning, Option.some.injEq] at h
    subst h; rfl
  | msg s t =>
    cases t with
    | undef =>
      simp only [recordedWarning, Option.some.injEq] at h
      subst h; rfl
    | nullish => simp [recordedWarning] at h
    | ctor k =>
      simp only [recordedWarning, Option.some.injEq] at h
      subst h; rfl

theorem warn_recorded_events (m : WarningManager) (a : WarnArg) (w : Warning)
    (h : recordedWarning a = some w) :
    (warn m a).2 = m.observers.map (fun o => (o, w)) := by
  cases a with
  | inst w' =>
    simp only [recordedWarning, Option.some.injEq] at h
    subst h; rfl
  | msg s t =>
    cases t with
    | undef =>
      simp only [recordedWarning, Option.some.injEq] at h
      subst h; rfl
    | nullish => simp [recordedWarning] at h
    | ctor k =>
      simp only [recordedWarning, Option.some.injEq] at h
      subst h; rfl

theorem isInfixB_nil_left (hay : List Char) : isInfixB [] hay = true := by
  cases hay <;> simp [isInfixB, List.isPrefixOf]

/-- C3 counterexample: the claim says a `warn` call with a string message and
an absent variant constructor appends nothing and notifies nobody; on the
code, an absent constructor argument takes the default `Warning` class, so
the call appends one record and notifies the subscribed observer once. -/
theorem warn_absent_ctor_appends_cex :
    (warn ⟨[], [3], false⟩ (.msg "This is a warning message." .undef)).1.warnings.length = 1 ∧
    (warn ⟨[], [3], false⟩ (.msg "This is a warning message." .undef)).2 =
      [(3, mkWarning .Warning "This is a warning message.")] := by
  exact ⟨rfl, rfl⟩

/-- C3 (amended): a `warn` call with a string message and an explicitly
falsy, non-`undefined` variant constructor (e.g. `null`) is a no-op: the
state is unchanged and no observer is notified. An absent or `undefined`
constructor instead defaults to `Warning` and appends. -/
theorem warn_falsy_ctor_noop (m : WarningManager) (s : String) :
    warn m (.msg s .nullish) = (m, []) := rfl

/-- C4: `getWarnings()` with no filter returns exactly the stored records in
insertion order, its length equals `length`, and recording afterwards only
appends to a later snapshot — a previously returned sequence (a pure value
here; the source returns a fresh copy `[...warnings]`) is not altered. -/
theorem getWarnings_unfiltered_snapshot (m : WarningManager) :
    getWarnings m .noFilter = m.warnings ∧
    (getWarnings m .noFilter).length = m.length ∧
    (∀ (a : WarnArg) (w : Warning), recordedWarning a = some w →
      getWarnings (warn m a).1 .noFilter = getWarnings m .noFilter ++ [w]) := by
  refine ⟨rfl, rfl, fun a w h => ?_⟩
  rw [warn_recorded_state m a w h]
  rfl

/-- Witness for C4 at a concrete manager and call. -/
theorem getWarnings_unfiltered_snapshot_witness :
    getWarnings ⟨[mkWarning .Warning "one"], [], false⟩ .noFilter =
      [mkWarning .Warning "one"] ∧
    getWarnings (warn ⟨[mkWarning .Warning "one"], [], false⟩
        (.msg "two" .undef)).1 .noFilter =
      [mkWarning .Warning "one", mkWarning .Warning "two"] := by
  have h := getWarnings_unfiltered_snapshot ⟨[mkWarning .Warning "one"], [], false⟩
  exact ⟨h.1, (h.2.2 (.msg "two" .undef) (mkWarning .Warning "two") rfl).trans rfl⟩

/-- C5: `getWarnings(msg)` returns exactly the subsequence, in recording
order, of stored records whose `message` contains `msg` as a substring
(JavaScript `includes`, case-sensitive); the empty string returns all
records. The last conjunct ties the boolean test to substring containment
on character lists. -/
theorem getWarnings_message_filter (m : WarningManager) (s : String) :
    getWarnings m (.byMsg s) = m.warnings.filter (fun w => jsIncludes w.message s) ∧
    (getWarnings m (.byMsg s)).Sublist m.warnings ∧
    (∀ w : Warning, w ∈ getWarnings m (.byMsg s) ↔
      w ∈ m.warnings ∧ jsIncludes w.message s = true) ∧
    getWarnings m (.byMsg "") = m.warnings ∧
    (∀ a b : String, jsIncludes a b = true ↔ b.data <:+: a.data) := by
  refine ⟨rfl, List.filter_sublist _, fun w => List.mem_filter, ?_, ?_⟩
  · show m.warnings.filter _ = m.warnings
    exact List.filter_eq_self.mpr (fun w _ => isInfixB_nil_left w.message.data)
  · intro a b
    exact isInfixB_iff b.data a.data

/-- C6: `getWarnings(type)` returns exactly the subsequence, in recording
order, of stored records whose dynamic class is `type` or a class derived
from it; the last two conjuncts characterise the `instanceof` test through
the ancestor chain and check the chain against the `extends` clauses. -/
theorem getWarnings_variant_filter (m : WarningManager) (k : WKind) :
    getWarnings m (.byType k) = m.warnings.filter (fun w => isA w.kind k) ∧
    (getWarnings m (.byType k)).Sublist m.warnings ∧
    (∀ w : Warning, w ∈ getWarnings m (.byType k) ↔
      w ∈ m.warnings ∧ isA w.kind k = true) ∧
    (∀ a b : WKind, isA a b = true ↔ b ∈ selfAndAncestors a) ∧
    (∀ a : WKind, selfAndAncestors a =
      a :: (match parentKind a with | none => [] | some p => selfAndAncestors p)) := by
  refine ⟨rfl, List.filter_sublist _, fun w => List.mem_filter, ?_, selfAndAncestors_eq_parent⟩
  intro a b
  simp [isA]

/-- C8: `clear()` removes all stored records — `length` becomes `0` and an
unfiltered query returns the empty sequence — and leaves the observer list
and the `completed` flag untouched. -/
theorem clear_removes_all_and_frames (m : WarningManager) :
    (clear m).length = 0 ∧
    getWarnings (clear m) .noFilter = [] ∧
    (clear m).observers = m.observers ∧
    (clear m).completed = m.completed := by
  exact ⟨rfl, rfl, rfl, rfl⟩

/-- C9: every warning class carries its fixed `code`, independent of the
supplied message (or, for `StabilityWarning`, of a data-object argument):
`Warning` 72, `OSWarning` 73, `MemoryWarning` 74, `DiskWarning` 75,
`ProcessWarning` 76, `ConnectionWarning` 77, `FutureWarning` 88,
`StabilityWarning` 89, `PendingDeprecationWarning` 90,
`DeprecationWarning` 91. -/
theorem warning_codes_fixed (s : String) (arg : MessageOrData) :
    (mkWarning .Warning s).code = 72 ∧
    (mkWarning .OSWarning s).code = 73 ∧
    (mkWarning .MemoryWarning s).code = 74 ∧
    (mkWarning .DiskWarning s).code = 75 ∧
    (mkWarning .ProcessWarning s).code = 76 ∧
    (mkWarning .ConnectionWarning s).code = 77 ∧
    (mkWarning .FutureWarning s).code = 88 ∧
    (mkWarning .StabilityWarning s).code = 89 ∧
    (mkWarning .PendingDeprecationWarning s).code = 90 ∧
    (mkWarning .DeprecationWarning s).code = 91 ∧
    (mkStabilityWarning arg).code = 89 := by
  exact ⟨rfl, rfl, rfl, rfl, rfl, rfl, rfl, rfl, rfl, rfl, rfl⟩

theorem warn_preserves_observers (m : WarningManager) (a : WarnArg) :
    (warn m a).1.observers = m.observers := by
  cases a with
  | inst w => rfl
  | msg s t => cases t <;> rfl

theorem warn_preserves_completed (m : WarningManager) (a : WarnArg) :
    (warn m a).1.completed = m.completed := by
  cases a with
  | inst w => rfl
  | msg s t => cases t <;> rfl

theorem wellFormed_recorded (a : WarnArg) (h : wellFormed a = true) :
    ∃ w, recordedWarning a = some w := by
  cases a with
  | inst w => exact ⟨w, rfl⟩
  | msg s t =>
    cases t with
    | undef => exact ⟨mkWarning .Warning s, rfl⟩
    | nullish => simp [wellFormed] at h
    | ctor k => exact ⟨mkWarning k s, rfl⟩

theorem runWarn_length (m : WarningManager) (args : List WarnArg)
    (h : ∀ a ∈ args, wellFormed a = true) :
    (runWarn m args).1.warnings.length = m.warnings.length + args.length := by
  induction args generalizing m with
  | nil => simp [runWarn]
  | cons a rest ih =>
    obtain ⟨w, hw⟩ := wellFormed_recorded a (h a (List.mem_cons_self a rest))
    show (runWarn (warn m a).1 rest).1.warnings.length = _
    rw [ih (warn m a).1 (fun b hb => h b (List.mem_cons_of_mem a hb)),
      warn_recorded_state m a w hw]
    simp [Nat.add_assoc, Nat.add_comm 1]

theorem runWarn_events_of_no_observers (m : WarningManager) (args : List WarnArg)
    (h : m.observers = []) :
    (runWarn m args).2 = [] := by
  induction args generalizing m with
  | nil => rfl
  | cons a rest ih =>
    show (warn m a).2 ++ (runWarn (warn m a).1 rest).2 = []
    have hobs : (warn m a).1.observers = [] := by
      rw [warn_preserves_observers, h]
    rw [ih (warn m a).1 hobs]
    cases a with
    | inst w => simp [warn, add, publish, h]
    | msg s t => cases t <;> simp [warn, add, publish, h]

theorem applyOp_preserves_completed (m : WarningManager) (op : MOp)
    (h : m.completed = true) :
    (applyOp m op).1.completed = true := by
  cases op with
  | warnOp a => rw [applyOp, warn_preserves_completed]; exact h
  | clearOp => exact h
  | subscribeOp o => exact h
  | completeOp => rfl

theorem runOps_preserves_completed (m : WarningManager) (ops : List MOp)
    (h : m.completed = true) :
    (runOps m ops).1.completed = true := by
  induction ops generalizing m with
  | nil => exact h
  | cons op rest ih =>
    exact ih (applyOp m op).1 (applyOp_preserves_completed m op h)

/-- C1 counterexample: the claim as stated requires the appended record's
`message` to equal the supplied message for every well-formed call; the call
`warn('', StabilityWarning)` is well-formed, yet the record delivered to the
subscribed observer carries the `StabilityWarning` default message — the
constructor replaces the empty message (`message = message || DEFAULT_MESSAGE`)
— which differs from the supplied empty string. -/
theorem warn_empty_stability_message_cex :
    wellFormed (.msg "" (.ctor .StabilityWarning)) = true ∧
    (warn ⟨[], [0], false⟩ (.msg "" (.ctor .StabilityWarning))).2 =
      [(0, mkWarning .StabilityWarning "")] ∧
    (mkWarning .StabilityWarning "").message = STABILITY_DEFAULT_MESSAGE ∧
    STABILITY_DEFAULT_MESSAGE ≠ "" := by
  refine ⟨rfl, rfl, rfl, by decide⟩

/-- C1 (amended): every well-formed `warn` call appends exactly one record —
after N such calls the collection has grown by N, regardless of the
subscribed observers — and every observer subscribed at the moment of the
call has `next` invoked exactly once with the newly appended record. The
record's `message` equals the supplied message, except that an empty string
message given to `StabilityWarning`, `DeprecationWarning` or
`PendingDeprecationWarning` is replaced by that class's default message. -/
theorem warn_appends_and_notifies :
    (∀ (m : WarningManager) (args : List WarnArg),
      (∀ a ∈ args, wellFormed a = true) →
      (runWarn m args).1.warnings.length = m.warnings.length + args.length) ∧
    (∀ (m : WarningManager) (a : WarnArg) (w : Warning),
      recordedWarning a = some w →
      (warn m a).1.warnings = m.warnings ++ [w] ∧
      (warn m a).2 = m.observers.map (fun o => (o, w)) ∧
      ∀ o : Nat, m.observers.count o = 1 →
        (warn m a).2.countP (fun e => e.1 == o) = 1) ∧
    (∀ a : WarnArg, wellFormed a = true → (recordedWarning a).isSome = true) ∧
    (∀ (s : String) (k : WKind), (s ≠ "" ∨ defaultMessageOf k = none) →
      (mkWarning k s).message = s) ∧
    (∀ (k : WKind) (d : String), defaultMessageOf k = some d →
      (mkWarning k "").message = d) := by
  refine ⟨runWarn_length, fun m a w h => ?_, fun a h => ?_, fun s k h => ?_, fun k d h => ?_⟩
  · refine ⟨?_, warn_recorded_events m a w h, fun o ho => ?_⟩
    · rw [warn_recorded_state m a w h]
    · rw [warn_recorded_events m a w h, List.countP_map]
      show m.observers.countP (fun o' => o' == o) = 1
      rw [← List.count_eq_countP']
      exact ho
  · obtain ⟨w, hw⟩ := wellFormed_recorded a h
    rw [hw]; rfl
  · show ctorMessage k s = s
    rw [ctorMessage]
    rcases hd : defaultMessageOf k with _ | d
    · rfl
    · rcases h with h | h
      · simp [h]
      · rw [h] at hd; cases hd
  · show ctorMessage k "" = d
    rw [ctorMessage, h]
    rfl

/-- Witness for C1 at a concrete manager, call sequence and observer. -/
theorem warn_appends_and_notifies_witness :
    (runWarn ⟨[], [7], false⟩
        [.msg "a" .undef, .inst (mkWarning .OSWarning "b")]).1.warnings.length = 0 + 2 ∧
    (warn ⟨[], [7], false⟩ (.msg "a" .undef)).2.countP (fun e => e.1 == 7) = 1 ∧
    (mkWarning .OSWarning "b").message = "b" := by
  have h := warn_appends_and_notifies
  refine ⟨h.1 ⟨[], [7], false⟩ _ (by decide), ?_, ?_⟩
  · exact (h.2.1 ⟨[], [7], false⟩ (.msg "a" .undef) (mkWarning .Warning "a") rfl).2.2 7
      (by decide)
  · exact h.2.2.2.1 "b" .OSWarning (Or.inl (by decide))

/-- C2: `complete()` clears the collection (`length` becomes 0), empties the
observer list and sets the `completed` flag; afterwards well-formed `warn`
calls still append (the collection counts exactly the new records) while no
`next` is ever invoked — in particular no observer subscribed before the
completion is notified again — and no operation sequence whatsoever brings a
completed manager back to the active state. -/
theorem complete_clears_and_silences :
    (∀ m : WarningManager,
      (complete m).warnings = [] ∧
      (complete m).length = 0 ∧
      (complete m).observers = [] ∧
      (complete m).completed = true) ∧
    (∀ (m : WarningManager) (args : List WarnArg),
      (∀ a ∈ args, wellFormed a = true) →
      (runWarn (complete m) args).1.warnings.length = args.length) ∧
    (∀ (m : WarningManager) (args : List WarnArg),
      (runWarn (complete m) args).2 = []) ∧
    (∀ (m : WarningManager) (ops : List MOp),
      m.completed = true → (runOps m ops).1.completed = true) := by
  refine ⟨fun m => ⟨rfl, rfl, rfl, rfl⟩, fun m args h => ?_, fun m args => ?_,
    runOps_preserves_completed⟩
  · rw [runWarn_length (complete m) args h]
    show 0 + args.length = args.length
    omega
  · exact runWarn_events_of_no_observers (complete m) args rfl

/-- Witness for C2 at a concrete manager, record sequence and operation
sequence. -/
theorem complete_clears_and_silences_witness :
    (complete ⟨[mkWarning .Warning "x"], [1, 2], false⟩).length = 0 ∧
    (runWarn (complete ⟨[mkWarning .Warning "x"], [1, 2], false⟩)
      [.msg "y" .undef]).1.warnings.length = 1 ∧
    (runWarn (complete ⟨[mkWarning .Warning "x"], [1, 2], false⟩)
      [.msg "y" .undef]).2 = [] ∧
    (runOps ⟨[], [], true⟩ [.subscribeOp 9, .warnOp (.msg "z" .undef), .clearOp]).1.completed
      = true := by
  have h := complete_clears_and_silences
  refine ⟨(h.1 ⟨[mkWarning .Warning "x"], [1, 2], false⟩).2.1,
    h.2.1 ⟨[mkWarning .Warning "x"], [1, 2], false⟩ [.msg "y" .undef] (by decide),
    h.2.2.1 ⟨[mkWarning .Warning "x"], [1, 2], false⟩ [.msg "y" .undef],
    h.2.2.2 ⟨[], [], true⟩ [.subscribeOp 9, .warnOp (.msg "z" .undef), .clearOp] rfl⟩

theorem groupInsert_nil (n : String) (w : Warning) :
    groupInsert [] n w = [(n, [w])] := rfl

theorem groupInsert_cons_pos (k : String) (ws : List Warning)
    (rest : List (String × List Warning)) (n : String) (w : Warning) (h : k = n) :
    groupInsert ((k, ws) :: rest) n w = (k, ws ++ [w]) :: rest := by
  simp [groupInsert, h]

theorem groupInsert_cons_neg (k : String) (ws : List Warning)
    (rest : List (String × List Warning)) (n : String) (w : Warning) (h : ¬ k = n) :
    groupInsert ((k, ws) :: rest) n w = (k, ws) :: groupInsert rest n w := by
  simp [groupInsert, h]

theorem groupLookup_cons (k : String) (ws : List Warning)
    (rest : List (String × List Warning)) (q : String) :
    groupLookup ((k, ws) :: rest) q = if k = q then ws else groupLookup rest q := rfl

theorem groupLookup_insert (g : List (String × List Warning)) (n : String)
    (w : Warning) (q : String) :
    groupLookup (groupInsert g n w) q =
      if q = n then groupLookup g q ++ [w] else groupLookup g q := by
  induction g with
  | nil =>
    rw [groupInsert_nil, groupLookup_cons]
    by_cases h : q = n
    · rw [if_pos h.symm, if_pos h]; rfl
    · rw [if_neg (fun hh => h hh.symm), if_neg h]
  | cons p rest ih =>
    obtain ⟨k, ws⟩ := p
    by_cases hk : k = n
    · rw [groupInsert_cons_pos k ws rest n w hk, groupLookup_cons, groupLookup_cons]
      by_cases hq : k = q
      · rw [if_pos hq, if_pos (hq ▸ hk ▸ rfl : q = n), if_pos hq]
      · rw [if_neg hq, if_neg (fun hh => hq (hk.trans hh.symm)), if_neg hq]
    · rw [groupInsert_cons_neg k ws rest n w hk, groupLookup_cons, groupLookup_cons, ih]
      by_cases hq : k = q
      · rw [if_pos hq, if_pos hq, if_neg (fun hh : q = n => hk (hq.trans hh))]
      · rw [if_neg hq, if_neg hq]

theorem groupSizes_insert (g : List (String × List Warning)) (n : String)
    (w : Warning) :
    ((groupInsert g n w).map (fun p => p.2.length)).sum =
      (g.map (fun p => p.2.length)).sum + 1 := by
  induction g with
  | nil => simp [groupInsert_nil]
  | cons p rest ih =>
    obtain ⟨k, ws⟩ := p
    by_cases hk : k = n
    · rw [groupInsert_cons_pos k ws rest n w hk]
      simp
      omega
    · rw [groupInsert_cons_neg k ws rest n w hk]
      simp only [List.map_cons, List.sum_cons, ih]
      omega

theorem groupKeys_insert_mem (g : List (String × List Warning)) (n : String)
    (w : Warning) (q : String) :
    q ∈ (groupInsert g n w).map Prod.fst ↔ q = n ∨ q ∈ g.map Prod.fst := by
  induction g with
  | nil => simp [groupInsert_nil]
  | cons p rest ih =>
    obtain ⟨k, ws⟩ := p
    by_cases hk : k = n
    · rw [groupInsert_cons_pos k ws rest n w hk]
      subst hk
      simp only [List.map_cons, List.mem_cons]
      tauto
    · rw [groupInsert_cons_neg k ws rest n w hk]
      simp only [List.map_cons, List.mem_cons, ih]
      tauto

theorem groupKeys_insert_nodup (g : List (String × List Warning)) (n : String)
    (w : Warning) (h : (g.map Prod.fst).Nodup) :
    ((groupInsert g n w).map Prod.fst).Nodup := by
  induction g with
  | nil => simp [groupInsert_nil]
  | cons p rest ih =>
    obtain ⟨k, ws⟩ := p
    simp only [List.map_cons, List.nodup_cons] at h
    by_cases hk : k = n
    · rw [groupInsert_cons_pos k ws rest n w hk]
      simp only [List.map_cons, List.nodup_cons]
      exact h
    · rw [groupInsert_cons_neg k ws rest n w hk]
      simp only [List.map_cons, List.nodup_cons]
      refine ⟨?_, ih h.2⟩
      intro hmem
      rcases (groupKeys_insert_mem rest n w k).mp hmem with hkn | hmem2
      · exact hk hkn
      · exact h.1 hmem2

theorem groupFold_lookup (ws : List Warning) (g : List (String × List Warning))
    (n : String) :
    groupLookup (ws.foldl (fun acc w => groupInsert acc (kindName w.kind) w) g) n =
      groupLookup g n ++ ws.filter (fun w => kindName w.kind == n) := by
  induction ws generalizing g with
  | nil => simp
  | cons w rest ih =>
    rw [List.foldl_cons, ih, groupLookup_insert]
    by_cases h : n = kindName w.kind
    · rw [if_pos h, List.filter_cons, if_pos (by simp [h]), List.append_assoc]
      rfl
    · rw [if_neg h, List.filter_cons,
        if_neg (by simp only [beq_iff_eq, decide_eq_true_eq]; exact fun hh => h hh.symm)]

theorem groupFold_sizes (ws : List Warning) (g : List (String × List Warning)) :
    ((ws.foldl (fun acc w => groupInsert acc (kindName w.kind) w) g).map
        (fun p => p.2.length)).sum =
      (g.map (fun p => p.2.length)).sum + ws.length := by
  induction ws generalizing g with
  | nil => simp
  | cons w rest ih =>
    rw [List.foldl_cons, ih, groupSizes_insert]
    simp only [List.length_cons]
    omega

theorem groupFold_keys_mem (ws : List Warning) (g : List (String × List Warning))
    (n : String) :
    n ∈ (ws.foldl (fun acc w => groupInsert acc (kindName w.kind) w) g).map Prod.fst ↔
      n ∈ g.map Prod.fst ∨ ∃ w ∈ ws, kindName w.kind = n := by
  induction ws generalizing g with
  | nil => simp
  | cons w rest ih =>
    rw [List.foldl_cons, ih, groupKeys_insert_mem]
    simp only [List.mem_cons]
    constructor
    · rintro ((h | h) | ⟨w', hw', hn⟩)
      · exact Or.inr ⟨w, Or.inl rfl, h.symm⟩
      · exact Or.inl h
      · exact Or.inr ⟨w', Or.inr hw', hn⟩
    · rintro (h | ⟨w', (rfl | hw'), hn⟩)
      · exact Or.inl (Or.inr h)
      · exact Or.inl (Or.inl hn.symm)
      · exact Or.inr ⟨w', hw', hn⟩

theorem groupFold_keys_nodup (ws : List Warning) (g : List (String × List Warning))
    (h : (g.map Prod.fst).Nodup) :
    ((ws.foldl (fun acc w => groupInsert acc (kindName w.kind) w) g).map
      Prod.fst).Nodup := by
  induction ws generalizing g with
  | nil => exact h
  | cons w rest ih =>
    rw [List.foldl_cons]
    exact ih _ (groupKeys_insert_nodup g (kindName w.kind) w h)

/-- C7: `groupWarnings()` partitions the stored records by their own class
name: looking up any name yields exactly the (recording-ordered) subsequence
of records of that exact class, the group sizes sum to `length`, a name is a
key exactly when some stored record has that class name, and the keys are
pairwise distinct — so no record is omitted and none appears in two
groups. -/
theorem groupWarnings_partition (m : WarningManager) :
    (∀ n : String, groupLookup (groupWarnings m) n =
      m.warnings.filter (fun w => kindName w.kind == n)) ∧
    ((groupWarnings m).map (fun p => p.2.length)).sum = m.length ∧
    (∀ n : String, n ∈ (groupWarnings m).map Prod.fst ↔
      ∃ w ∈ m.warnings, kindName w.kind = n) ∧
    ((groupWarnings m).map Prod.fst).Nodup := by
  refine ⟨fun n => ?_, ?_, fun n => ?_, ?_⟩
  · rw [groupWarnings]
    show groupLookup (m.warnings.foldl _ []) n = _
    rw [groupFold_lookup]
    rfl
  · rw [groupWarnings]
    show ((m.warnings.foldl _ []).map _).sum = _
    rw [groupFold_sizes]
    simp [WarningManager.length]
  · rw [groupWarnings]
    show n ∈ (m.warnings.foldl _ []).map Prod.fst ↔ _
    rw [groupFold_keys_mem]
    simp
  · rw [groupWarnings]
    exact groupFold_keys_nodup m.warnings [] (by simp)

/-- C10: a `StabilityWarning` constructed from a data object with no truthy
`featureType`, `featureName` or `aboutUrl`, or from the empty string as
message, carries the default message; and whenever `featureType` is present
and non-empty, the synthesized message opens with the article `An` exactly
when the lowercased first character of `featureType` occurs in `"aeiou"`,
else with `A`, followed by the feature type. -/
theorem stability_default_and_article :
    (∀ d : StabilityWarningData,
      truthyStr d.featureType = false → truthyStr d.featureName = false →
      truthyStr d.aboutUrl = false →
      stabilityMessage (.data d) = STABILITY_DEFAULT_MESSAGE) ∧
    stabilityMessage (.message "") = STABILITY_DEFAULT_MESSAGE ∧
    (∀ (d : StabilityWarningData) (ft : String),
      d.featureType = some ft → ¬ ft = "" →
      ∃ r : String, createMessageFromData d =
        (if isInfixB ((ft.take 1).toLower).data "aeiou".data then "An" else "A") ++
          (" " ++ (ft ++ r))) := by
  refine ⟨fun d h1 h2 h3 => ?_, by decide, ?_⟩
  · simp [stabilityMessage, createMessageFromData, h1, h2, h3]
  · rintro ⟨oft, ofn, ourl⟩ ft hft hne
    simp only at hft
    subst hft
    have htype : truthyStr (some ft) = true := by simp [truthyStr, hne]
    rcases hfn : truthyStr ofn with _ | _
    · rcases hurl : truthyStr ourl with _ | _
      · refine ⟨" is unstable and should not be used in production environments.", ?_⟩
        simp [createMessageFromData, htype, hfn, hurl, String.append_assoc]
      · refine ⟨" is unstable and should not be used in production environments. Read more at "
          ++ ourl.getD "" ++ ".", ?_⟩
        simp [createMessageFromData, htype, hfn, hurl, String.append_assoc]
    · rcases hurl : truthyStr ourl with _ | _
      · refine ⟨", " ++ ofn.getD "" ++
          ", is unstable and should not be used in production environments.", ?_⟩
        simp [createMessageFromData, htype, hfn, hurl, String.append_assoc]
      · refine ⟨", " ++ ofn.getD "" ++
          ", is unstable and should not be used in production environments. Read more at "
          ++ ourl.getD "" ++ ".", ?_⟩
        simp [createMessageFromData, htype, hfn, hurl, String.append_assoc]

/-- Witness for C10 at concrete data objects. -/
theorem stability_default_and_article_witness :
    stabilityMessage (.data ⟨none, none, none⟩) = STABILITY_DEFAULT_MESSAGE ∧
    stabilityMessage (.message "") = STABILITY_DEFAULT_MESSAGE ∧
    (∃ r : String, createMessageFromData ⟨some "class", none, none⟩ =
      (if isInfixB (("class".take 1).toLower).data "aeiou".data then "An" else "A") ++
        (" " ++ ("class" ++ r))) := by
  have h := stability_default_and_article
  exact ⟨h.1 ⟨none, none, none⟩ rfl rfl rfl, h.2.1,
    h.2.2 ⟨some "class", none, none⟩ "class" rfl (by decide)⟩
